import Mathlib

/-!
Verification development for the fantasy-draft identity-resolution core
(`fantasy_draft_tool.py`).  Strings are modelled as `List Char`; Python
dicts as association lists with insert-or-overwrite preserving insertion
order; the third-party fuzzy scorer is a pluggable `scorer` argument
(the design abstracts it as `similarity(a, b) -> score in [0,100]`).
-/

namespace FantasyDraft

abbrev LC := List Char

/-- Convert a Lean string literal to the character-list representation. -/
def strL (s : String) : LC := s.toList

/-- Python regex whitespace class `\s` (ASCII range). -/
def isPySpace (c : Char) : Bool :=
  c = ' ' || c = '\t' || c = '\n' || c = '\x0b' || c = '\x0c' || c = '\r'

/-- Accented Latin letters in scope, paired with their base letter.
NFKD decomposition of each left component is the right component followed
by a combining mark. -/
def accentBase : List (Char × Char) :=
  [('á', 'a'), ('à', 'a'), ('â', 'a'), ('ä', 'a'), ('ã', 'a'), ('å', 'a'),
   ('é', 'e'), ('è', 'e'), ('ê', 'e'), ('ë', 'e'),
   ('í', 'i'), ('ì', 'i'), ('î', 'i'), ('ï', 'i'),
   ('ó', 'o'), ('ò', 'o'), ('ô', 'o'), ('ö', 'o'), ('õ', 'o'),
   ('ú', 'u'), ('ù', 'u'), ('û', 'u'), ('ü', 'u'),
   ('ñ', 'n'), ('ç', 'c'), ('ý', 'y')]

/-- Combining marks produced by decomposing the letters of `accentBase`. -/
def combiningMarks : List Char :=
  [Char.ofNat 0x300, Char.ofNat 0x301, Char.ofNat 0x302, Char.ofNat 0x303,
   Char.ofNat 0x308, Char.ofNat 0x30a, Char.ofNat 0x327]

/-- Char-level model of source lines 58-59: NFKD-decompose and drop
combining marks.  On the Latin range in scope an accented letter maps to
its base letter, a standalone combining mark is dropped, and every other
character is unchanged (`unicodedata` is the authority for the table). -/
def nfkdStrip (c : Char) : LC :=
  if combiningMarks.contains c then []
  else
    match accentBase.lookup c with
    | some b => [b]
    | none => [c]

/-- Source line 58-59: `name.lower()` then NFKD minus combining marks.
Python `str.lower` is modelled by ASCII `Char.toLower`; the lowercase
accented letters in scope are fixed points of `lower`, so the model covers
inputs whose uppercase letters are ASCII. -/
def normStage1 (name : LC) : LC :=
  (name.map Char.toLower).flatMap nfkdStrip

/-- Characters kept verbatim by the regex `[^a-z0-9\s]` of source line 61. -/
def isKeepChar (c : Char) : Bool :=
  ('a' ≤ c && c ≤ 'z') || ('0' ≤ c && c ≤ '9') || isPySpace c

/-- Source line 61: every character outside `[a-z0-9\s]` becomes a space. -/
def normStage2 (l : LC) : LC :=
  l.map (fun c => if isKeepChar c then c else ' ')

/-- The generational-suffix tokens of the regex on source line 63. -/
def suffixTokens : List LC :=
  [['j', 'r'], ['s', 'r'], ['i', 'i'], ['i', 'i', 'i'], ['i', 'v'], ['v']]

/-- Split on Python `\s` characters, keeping the (possibly empty) pieces.
Never returns the empty list. -/
def splitWs : LC → List LC
  | [] => [[]]
  | c :: cs =>
    if isPySpace c then [] :: splitWs cs
    else
      match splitWs cs with
      | [] => [[c]]
      | w :: ws => (c :: w) :: ws

/-- The whitespace-delimited words of a character list. -/
def words (l : LC) : List LC := (splitWs l).filter (fun w => w ≠ [])

/-- Rejoin words with single spaces. -/
def joinWords (ws : List LC) : LC := List.intercalate [' '] ws

/-- Source lines 45-66, `_normalize_name`.  The output of line 61 contains
only `[a-z0-9\s]`, so on it the regex `\b(jr|sr|ii|iii|iv|v)\b` of line 63
deletes exactly the whitespace-delimited tokens equal to a suffix token
(the alternation backtracks past the shorter `ii` when `iii` is present),
and line 65's collapse-and-strip equals splitting into words and rejoining
with single spaces.  Lines 63+65 are therefore modelled together as a
filter over the word list. -/
def _normalize_name (name : LC) : LC :=
  if name = [] then []
  else
    joinWords ((words (normStage2 (normStage1 name))).filter
      (fun t => !(suffixTokens.contains t)))

example : _normalize_name (strL "José Alí Jr.") = strL "jose ali" := by decide
example : _normalize_name (strL "Ken Griffey III") = strL "ken griffey" := by decide
example : _normalize_name (strL "A.J. Brown") = strL "a j brown" := by decide
example : _normalize_name (strL "") = strL "" := by decide

/-- Python `s.split(" ")` (split on the literal space character, keeping
empty pieces); used by source line 228. -/
def splitOnSpace : LC → List LC
  | [] => [[]]
  | c :: cs =>
    if c = ' ' then [] :: splitOnSpace cs
    else
      match splitOnSpace cs with
      | [] => [[c]]
      | w :: ws => (c :: w) :: ws

/-- Source line 228: `self._normalize_name(name).split(" ")[-1]`
(the `[-1]` index of Python never fails on a `split` result, so the
`except` branch of lines 229-230 is unreachable). -/
def lastToken (l : LC) : LC := (splitOnSpace l).getLastD []

/-- Python `str.upper` (the team/position codes in play are ASCII). -/
def upperStr (l : LC) : LC := l.map Char.toUpper

example : lastToken (_normalize_name (strL "Marquise Brown")) = strL "brown" := by decide
example : lastToken (_normalize_name (strL "")) = [] := by decide

/-- One row of the ranking source (`Player` dataclass, source lines 18-32).
Strings are `List Char`; optional fields are `Option`. -/
structure Player where
  name : LC
  team : LC
  position : LC
  overall_rank : Int
  position_rank : Int
  tier : Int
  bye_week : Int
  sos_season : LC
  ecr_vs_adp : Int
  sleeper_id : Option LC := none
  drafted : Bool := false
  drafted_by : Option LC := none
deriving DecidableEq

/-- One external-registry entry (a Sleeper player dict).  A field that is
absent or `None` in the Python dict is `none`; a present string value is
`some`.  (A registry value that is an empty dict is treated by Python's
truthiness tests exactly like an absent entry and is modelled as such.) -/
structure SleeperPlayer where
  full_name : Option LC := none
  search_full_name : Option LC := none
  first_name : Option LC := none
  last_name : Option LC := none
  team : Option LC := none
  team_name : Option LC := none
  position : Option LC := none
deriving DecidableEq

/-- The mutable tool state used by the resolution pipeline: the ranked
records, the registry snapshot (a Python dict modelled as an association
list in insertion order, keys unique), and the drafted-identifier set
(a Python set modelled as a list used only through membership). -/
structure ToolState where
  players : List Player
  sleeper_players : List (LC × SleeperPlayer)
  drafted_sleeper_ids : List LC
deriving DecidableEq

/-- Python dict lookup `d.get(k)`. -/
def dget {α : Type} : List (LC × α) → LC → Option α
  | [], _ => none
  | e :: rest, k => if e.1 = k then some e.2 else dget rest k

/-- Python dict assignment `d[k] = v`: overwrite in place if the key
exists (keeping its position), else append. -/
def dset {α : Type} : List (LC × α) → LC → α → List (LC × α)
  | [], k, v => [(k, v)]
  | e :: rest, k, v => if e.1 = k then (k, v) :: rest else e :: dset rest k v

/-- Python truthiness of an optional string (`None` and `""` are falsy). -/
def truthy (o : Option LC) : Bool := o.getD [] ≠ []

/-- The three lookup tables built by `match_players` (source lines 165-193):
raw full name → id, normalized name → id, and uppercased position →
(normalized name → id). -/
structure Maps where
  sleeper_names : List (LC × LC)
  normalized_map : List (LC × LC)
  position_map : List (LC × List (LC × LC))
deriving DecidableEq

/-- Processing of one registry entry by the index-building loop of
source lines 168-193. -/
def stepMaps (m : Maps) (e : LC × SleeperPlayer) : Maps :=
  let pid := e.1
  let sp := e.2
  let full_name := sp.full_name.getD []
  let m1 :=
    if full_name ≠ [] then
      { m with
        sleeper_names := dset m.sleeper_names full_name pid,
        normalized_map := dset m.normalized_map (_normalize_name full_name) pid }
    else m
  let search := sp.search_full_name.getD []
  let m2 :=
    if search ≠ [] then
      { m1 with normalized_map := dset m1.normalized_map (_normalize_name search) pid }
    else m1
  let first := sp.first_name.getD []
  let last := sp.last_name.getD []
  let m3 :=
    if first ≠ [] ∧ last ≠ [] then
      { m2 with
        normalized_map :=
          dset m2.normalized_map (_normalize_name (first ++ ' ' :: last)) pid }
    else m2
  let pos := upperStr (sp.position.getD [])
  if pos ≠ [] then
    let pm := if (dget m3.position_map pos).isSome then m3.position_map
              else dset m3.position_map pos []
    let pd0 := (dget pm pos).getD []
    let pd1 := if full_name ≠ [] then dset pd0 (_normalize_name full_name) pid else pd0
    let pd2 := if search ≠ [] then dset pd1 (_normalize_name search) pid else pd1
    let pd3 := if first ≠ [] ∧ last ≠ [] then
                 dset pd2 (_normalize_name (first ++ ' ' :: last)) pid
               else pd2
    { m3 with position_map := dset pm pos pd3 }
  else m3

/-- The index built over a registry snapshot (source lines 165-193). -/
def buildMaps (sps : List (LC × SleeperPlayer)) : Maps :=
  sps.foldl stepMaps ⟨[], [], []⟩

/-- Model of `fuzzywuzzy.process.extractOne` over already-normalized keys:
score every candidate with the pluggable scorer and return the first
maximum-scoring one (Python `max` keeps the first among equals), or `none`
when there are no candidates. -/
def bestStep (scorer : LC → LC → Nat) (query : LC) (acc : Option (LC × Nat))
    (k : LC) : Option (LC × Nat) :=
  match acc with
  | none => some (k, scorer query k)
  | some (bk, bs) =>
    if bs < scorer query k then some (k, scorer query k) else some (bk, bs)

def extractOne (scorer : LC → LC → Nat) (query : LC) (keys : List LC) :
    Option (LC × Nat) :=
  keys.foldl (bestStep scorer query) none

/-- Source line 212: `position_map.get(position, {}) or normalized_map` —
a missing or empty per-position table falls back to the full table. -/
def candidatesMap (maps : Maps) (position : LC) : List (LC × LC) :=
  match dget maps.position_map position with
  | some d => if d = [] then maps.normalized_map else d
  | none => maps.normalized_map

/-- The registry entries satisfying the structural triple of source line
239: normalized registry last name equal to the record's normalized
surname token, and uppercased team and position equal to the record's. -/
def tripleCandidates (sps : List (LC × SleeperPlayer)) (name team position : LC) :
    List LC :=
  (sps.filter (fun e =>
    decide (_normalize_name (e.2.last_name.getD []) = lastToken (_normalize_name name) ∧
            upperStr (e.2.team.getD []) = upperStr team ∧
            upperStr (e.2.position.getD []) = upperStr position))).map (fun e => e.1)

/-- Tier 4, source lines 226-244: the structured last-name/team/position
fallback.  Candidates are collected only when the surname token, team and
position are nonempty and the team is not "FA" (line 234); the match is
accepted only when exactly one candidate id was collected (line 241). -/
def tier4 (sps : List (LC × SleeperPlayer)) (name team position : LC) : Option LC :=
  let last_name := lastToken (_normalize_name name)
  let teamU := upperStr team
  let posU := upperStr position
  let fallback_candidates : List LC :=
    if last_name ≠ [] ∧ teamU ≠ [] ∧ teamU ≠ strL "FA" ∧ posU ≠ [] then
      tripleCandidates sps name team position
    else []
  match fallback_candidates with
  | [pid] => some pid
  | _ => none

/-- The per-record matching cascade of source lines 197-244, as a function
of the record's identity fields: tier 1 raw-name table, tier 2 normalized
table, tier 3 fuzzy with threshold 88, tier 4 structured fallback. -/
def matchFields (scorer : LC → LC → Nat) (sps : List (LC × SleeperPlayer))
    (maps : Maps) (name team position : LC) : Option LC :=
  match dget maps.sleeper_names name with
  | some pid => some pid
  | none =>
    let nfp := _normalize_name name
    match dget maps.normalized_map nfp with
    | some pid => some pid
    | none =>
      let cmap := candidatesMap maps position
      match extractOne scorer nfp (cmap.map (fun e => e.1)) with
      | some (k, s) =>
        if 88 ≤ s then
          match dget cmap k with
          | some pid => some pid
          | none => none
        else tier4 sps name team position
      | none => tier4 sps name team position

/-- Resolution of one ranked record (the body of the loop at line 197). -/
def matchOne (scorer : LC → LC → Nat) (sps : List (LC × SleeperPlayer))
    (maps : Maps) (p : Player) : Option LC :=
  matchFields scorer sps maps p.name p.team p.position

/-- The best-candidate diagnostic recomputed for an unmatched record by
the reporting loop of source lines 256-266. -/
def bestDiag (scorer : LC → LC → Nat) (maps : Maps) (p : Player) :
    Option (LC × Nat) :=
  extractOne scorer (_normalize_name p.name)
    ((candidatesMap maps p.position).map (fun e => e.1))

/-- The matching loop of source lines 195-247: returns the updated record
list, the matched count, and the unmatched records each paired with the
best-candidate diagnostic the source prints for it. -/
def matchLoop (scorer : LC → LC → Nat) (sps : List (LC × SleeperPlayer))
    (maps : Maps) : List Player → List Player × Nat × List (Player × Option (LC × Nat))
  | [] => ([], 0, [])
  | p :: ps =>
    let rest := matchLoop scorer sps maps ps
    match matchOne scorer sps maps p with
    | some pid => ({ p with sleeper_id := some pid } :: rest.1, rest.2.1 + 1, rest.2.2)
    | none => (p :: rest.1, rest.2.1, (p, bestDiag scorer maps p) :: rest.2.2)

/-- Source lines 309-311: reset a record's drafted state. -/
def resetP (p : Player) : Player := { p with drafted := false, drafted_by := none }

/-- Source lines 317-324: the set of normalized full names of the drafted
registry entries (ids without a registry entry are skipped; the
`drafted_position_by_id` dict built alongside is never read afterwards and
is omitted).  Modelled as a list used only through membership. -/
def draftedNormalizedNames (sps : List (LC × SleeperPlayer)) (ids : List LC) :
    List LC :=
  ids.filterMap (fun did =>
    match dget sps did with
    | none => none
    | some sp => some (_normalize_name (sp.full_name.getD [])))

/-- Source lines 327-329, first reconciler pass: a record whose (truthy)
resolved id is a member of the drafted set is flagged drafted. -/
def pass1f (ids : List LC) (p : Player) : Player :=
  if p.sleeper_id.getD [] ≠ [] ∧ p.sleeper_id.getD [] ∈ ids then
    { p with drafted := true }
  else p

/-- The inner candidate scan of source lines 340-348: some drafted id has
a registry entry with the same normalized full name whose (uppercased)
position is empty or equal to the record's position. -/
def pass2any (sps : List (LC × SleeperPlayer)) (ids : List LC)
    (norm_name position : LC) : Bool :=
  ids.any (fun did =>
    match dget sps did with
    | none => false
    | some sp =>
      if _normalize_name (sp.full_name.getD []) = norm_name then
        decide (upperStr (sp.position.getD []) = [] ∨
                upperStr (sp.position.getD []) = position)
      else false)

/-- Source lines 332-348, second reconciler pass: name-and-position
fallback for records the direct pass left undrafted. -/
def pass2f (sps : List (LC × SleeperPlayer)) (ids : List LC) (dnames : List LC)
    (p : Player) : Player :=
  if p.drafted then p
  else
    let norm_name := _normalize_name p.name
    if norm_name ∈ dnames then
      if pass2any sps ids norm_name p.position then { p with drafted := true } else p
    else p

/-- Source lines 306-348, `apply_drafted_status`: reset every record, stop
if the drafted set is empty, else run the direct pass then the
name-fallback pass. -/
def apply_drafted_status (st : ToolState) : ToolState :=
  let ps0 := st.players.map resetP
  if st.drafted_sleeper_ids = [] then { st with players := ps0 }
  else
    { st with
      players :=
        (ps0.map (pass1f st.drafted_sleeper_ids)).map
          (pass2f st.sleeper_players st.drafted_sleeper_ids
            (draftedNormalizedNames st.sleeper_players st.drafted_sleeper_ids)) }

/-- Source lines 160-270, `match_players`: build the index, run the
matching loop, then re-apply drafted status when drafted ids are already
known (lines 268-270).  The source prints the matched count and the
unmatched diagnostics; the model returns them alongside the new state. -/
def match_players (scorer : LC → LC → Nat) (st : ToolState) :
    ToolState × Nat × List (Player × Option (LC × Nat)) :=
  let maps := buildMaps st.sleeper_players
  let r := matchLoop scorer st.sleeper_players maps st.players
  let st1 := { st with players := r.1 }
  let st2 := if st.drafted_sleeper_ids ≠ [] then apply_drafted_status st1 else st1
  (st2, r.2.1, r.2.2)

/-- One entry of the unmatched-drafted report (source lines 367-372). -/
structure UnmatchedDrafted where
  player_id : LC
  full_name : Option LC
  position : Option LC
  team : Option LC
deriving DecidableEq

/-- Python `a or b` over optional strings (source line 371). -/
def pyOrOpt (a b : Option LC) : Option LC := if a.getD [] ≠ [] then a else b

/-- Source lines 350-373, `get_unmatched_drafted_from_sleeper`: drafted
registry entries whose normalized name matches no record currently flagged
drafted; ids without a registry entry are skipped. -/
def get_unmatched_drafted_from_sleeper (st : ToolState) : List UnmatchedDrafted :=
  if st.drafted_sleeper_ids = [] then []
  else
    let drafted_norms :=
      (st.players.filter (fun p => p.drafted)).map (fun p => _normalize_name p.name)
    st.drafted_sleeper_ids.filterMap (fun did =>
      match dget st.sleeper_players did with
      | none => none
      | some sp =>
        if _normalize_name (sp.full_name.getD []) ∈ drafted_norms then none
        else some ⟨did, sp.full_name, sp.position, pyOrOpt sp.team sp.team_name⟩)

/-- A ranked record with the given identity fields and inert metadata. -/
def mkP (name team position : String) : Player :=
  { name := strL name, team := strL team, position := strL position,
    overall_rank := 1, position_rank := 1, tier := 1, bye_week := 0,
    sos_season := [], ecr_vs_adp := 0 }

/-- A scorer that always returns the given score. -/
def constScorer (n : Nat) : LC → LC → Nat := fun _ _ => n

example :
    matchOne (constScorer 0)
      [(strL "7564",
        { full_name := some (strL "Justin Jefferson"), team := some (strL "MIN"),
          position := some (strL "WR") })]
      (buildMaps
        [(strL "7564",
          { full_name := some (strL "Justin Jefferson"), team := some (strL "MIN"),
            position := some (strL "WR") })])
      (mkP "Justin Jefferson" "MIN" "WR") = some (strL "7564") := by decide

example :
    matchOne (constScorer 0)
      [(strL "4199",
        { full_name := some (strL "Hollywood Brown"), last_name := some (strL "Brown"),
          team := some (strL "KC"), position := some (strL "WR") })]
      (buildMaps
        [(strL "4199",
          { full_name := some (strL "Hollywood Brown"), last_name := some (strL "Brown"),
            team := some (strL "KC"), position := some (strL "WR") })])
      (mkP "Marquise Brown" "KC" "WR") = some (strL "4199") := by decide

example :
    ((apply_drafted_status
        { players := [{ mkP "Justin Jefferson" "MIN" "WR" with sleeper_id := some (strL "7564") },
                      mkP "Bijan Robinson" "ATL" "RB"],
          sleeper_players := [(strL "7564",
            { full_name := some (strL "Justin Jefferson"), team := some (strL "MIN"),
              position := some (strL "WR") })],
          drafted_sleeper_ids := [strL "7564"] }).players).map Player.drafted =
      [true, false] := by decide

/-! ## Structural lemmas about the reconciler passes -/

theorem pass1f_cases (ids : List LC) (p : Player) :
    pass1f ids p = p ∨ pass1f ids p = { p with drafted := true } := by
  unfold pass1f; split
  · exact Or.inr rfl
  · exact Or.inl rfl

theorem pass2f_cases (sps : List (LC × SleeperPlayer)) (ids dnames : List LC)
    (p : Player) :
    pass2f sps ids dnames p = p ∨ pass2f sps ids dnames p = { p with drafted := true } := by
  simp only [pass2f]
  split
  · exact Or.inl rfl
  · split
    · split
      · exact Or.inr rfl
      · exact Or.inl rfl
    · exact Or.inl rfl

theorem resetP_resetP (p : Player) : resetP (resetP p) = resetP p := rfl

theorem resetP_drafted (p : Player) : resetP { p with drafted := true } = resetP p := rfl

theorem resetP_pass1f (ids : List LC) (p : Player) :
    resetP (pass1f ids p) = resetP p := by
  rcases pass1f_cases ids p with h | h <;> rw [h] <;> rfl

theorem resetP_pass2f (sps : List (LC × SleeperPlayer)) (ids dnames : List LC)
    (p : Player) : resetP (pass2f sps ids dnames p) = resetP p := by
  rcases pass2f_cases sps ids dnames p with h | h <;> rw [h] <;> rfl

theorem sleeper_id_resetP (p : Player) : (resetP p).sleeper_id = p.sleeper_id := rfl

theorem sleeper_id_pass1f (ids : List LC) (p : Player) :
    (pass1f ids p).sleeper_id = p.sleeper_id := by
  rcases pass1f_cases ids p with h | h <;> rw [h]

theorem sleeper_id_pass2f (sps : List (LC × SleeperPlayer)) (ids dnames : List LC)
    (p : Player) : (pass2f sps ids dnames p).sleeper_id = p.sleeper_id := by
  rcases pass2f_cases sps ids dnames p with h | h <;> rw [h]

/-- The record list `apply_drafted_status` computes, as a single map. -/
def applyPipeline (sps : List (LC × SleeperPlayer)) (ids : List LC)
    (ps : List Player) : List Player :=
  if ids = [] then ps.map resetP
  else
    ((ps.map resetP).map (pass1f ids)).map
      (pass2f sps ids (draftedNormalizedNames sps ids))

theorem apply_drafted_status_eq (st : ToolState) :
    apply_drafted_status st =
      { st with players := applyPipeline st.sleeper_players st.drafted_sleeper_ids st.players } := by
  unfold apply_drafted_status applyPipeline
  split <;> rfl

theorem map_resetP_absorb (F : Player → Player) (h : ∀ p, resetP (F p) = resetP p) :
    ∀ ps : List Player, (ps.map F).map resetP = ps.map resetP := by
  intro ps
  induction ps with
  | nil => rfl
  | cons p t ih => simp only [List.map_cons, h, ih]

theorem applyPipeline_map_resetP (sps : List (LC × SleeperPlayer)) (ids : List LC)
    (ps : List Player) :
    (applyPipeline sps ids ps).map resetP = ps.map resetP := by
  unfold applyPipeline
  split
  · exact map_resetP_absorb resetP resetP_resetP ps
  · rw [map_resetP_absorb _ (resetP_pass2f sps ids (draftedNormalizedNames sps ids)),
        map_resetP_absorb _ (resetP_pass1f ids),
        map_resetP_absorb _ resetP_resetP]

theorem applyPipeline_idem (sps : List (LC × SleeperPlayer)) (ids : List LC)
    (ps : List Player) :
    applyPipeline sps ids (applyPipeline sps ids ps) = applyPipeline sps ids ps := by
  conv_lhs => rw [applyPipeline]
  split
  · rw [applyPipeline_map_resetP]
    unfold applyPipeline
    split
    · rfl
    · rename_i h h2; exact absurd h h2
  · rw [applyPipeline_map_resetP]
    unfold applyPipeline
    split
    · rename_i h h2; exact absurd h2 h
    · rfl

theorem apply_drafted_status_idem (st : ToolState) :
    apply_drafted_status (apply_drafted_status st) = apply_drafted_status st := by
  rw [apply_drafted_status_eq st, apply_drafted_status_eq]
  dsimp only
  rw [applyPipeline_idem]

theorem apply_empty_all_false (st : ToolState)
    (h : st.drafted_sleeper_ids = []) :
    ∀ p ∈ (apply_drafted_status st).players, p.drafted = false := by
  intro p hp
  rw [apply_drafted_status_eq] at hp
  dsimp only at hp
  unfold applyPipeline at hp
  rw [if_pos h] at hp
  rcases List.mem_map.mp hp with ⟨q, _, hq⟩
  rw [← hq]
  rfl

/-! ## Characterization of the matching loop -/

/-- The update applied to one record by the matching loop. -/
def assignF (scorer : LC → LC → Nat) (sps : List (LC × SleeperPlayer))
    (maps : Maps) (p : Player) : Player :=
  match matchOne scorer sps maps p with
  | some pid => { p with sleeper_id := some pid }
  | none => p

theorem matchLoop_fst (scorer : LC → LC → Nat) (sps : List (LC × SleeperPlayer))
    (maps : Maps) (ps : List Player) :
    (matchLoop scorer sps maps ps).1 = ps.map (assignF scorer sps maps) := by
  induction ps with
  | nil => rfl
  | cons p t ih =>
    unfold matchLoop
    cases h : matchOne scorer sps maps p with
    | none =>
      have ha : assignF scorer sps maps p = p := by simp only [assignF, h]
      simp only [h, List.map_cons, ih, ha]
    | some pid =>
      have ha : assignF scorer sps maps p = { p with sleeper_id := some pid } := by
        simp only [assignF, h]
      simp only [h, List.map_cons, ih, ha]

theorem matchLoop_count (scorer : LC → LC → Nat) (sps : List (LC × SleeperPlayer))
    (maps : Maps) (ps : List Player) :
    (matchLoop scorer sps maps ps).2.1 =
      (ps.filter (fun p => (matchOne scorer sps maps p).isSome)).length := by
  induction ps with
  | nil => rfl
  | cons p t ih =>
    unfold matchLoop
    cases h : matchOne scorer sps maps p <;>
      simp [h, ih, List.filter_cons]

theorem matchLoop_unmatched (scorer : LC → LC → Nat) (sps : List (LC × SleeperPlayer))
    (maps : Maps) (ps : List Player) :
    (matchLoop scorer sps maps ps).2.2 =
      (ps.filter (fun p => (matchOne scorer sps maps p).isNone)).map
        (fun p => (p, bestDiag scorer maps p)) := by
  induction ps with
  | nil => rfl
  | cons p t ih =>
    unfold matchLoop
    cases h : matchOne scorer sps maps p <;>
      simp [h, ih, List.filter_cons]

/-! ## extractOne and dget lemmas -/

theorem bestStep_some (scorer : LC → LC → Nat) (query : LC)
    (acc : Option (LC × Nat)) (x k : LC) (s : Nat)
    (h : bestStep scorer query acc x = some (k, s)) :
    acc = some (k, s) ∨ k = x := by
  cases acc with
  | none =>
    simp only [bestStep, Option.some.injEq, Prod.mk.injEq] at h
    exact Or.inr h.1.symm
  | some b =>
    cases b with
    | mk bk bs =>
      simp only [bestStep] at h
      split at h
      · simp only [Option.some.injEq, Prod.mk.injEq] at h
        exact Or.inr h.1.symm
      · exact Or.inl h

theorem extractOne_aux (scorer : LC → LC → Nat) (query : LC) :
    ∀ (keys : List LC) (acc : Option (LC × Nat)) (k : LC) (s : Nat),
      keys.foldl (bestStep scorer query) acc = some (k, s) →
      acc = some (k, s) ∨ k ∈ keys := by
  intro keys
  induction keys with
  | nil => intro acc k s h; exact Or.inl h
  | cons x t ih =>
    intro acc k s h
    rcases ih _ k s h with h2 | h2
    · rcases bestStep_some scorer query acc x k s h2 with h3 | h3
      · exact Or.inl h3
      · exact Or.inr (h3 ▸ List.mem_cons_self x t)
    · exact Or.inr (List.mem_cons_of_mem x h2)

theorem extractOne_mem (scorer : LC → LC → Nat) (query : LC) (keys : List LC)
    (k : LC) (s : Nat) (h : extractOne scorer query keys = some (k, s)) :
    k ∈ keys := by
  rcases extractOne_aux scorer query keys none k s h with h2 | h2
  · exact absurd h2 (by simp)
  · exact h2

theorem dget_isSome_of_mem_keys {α : Type} (d : List (LC × α)) (k : LC)
    (h : k ∈ d.map (fun e => e.1)) : ∃ v, dget d k = some v := by
  induction d with
  | nil => simp at h
  | cons e t ih =>
    unfold dget
    by_cases he : e.1 = k
    · exact ⟨e.2, by rw [if_pos he]⟩
    · rcases List.mem_map.mp h with ⟨x, hx, hx1⟩
      rcases List.mem_cons.mp hx with rfl | hx2
      · exact absurd hx1 he
      · exact (by rw [if_neg he]; exact ih (List.mem_map.mpr ⟨x, hx2, hx1⟩))

/-! ## Field invariance of the matcher -/

theorem matchOne_congr (scorer : LC → LC → Nat) (sps : List (LC × SleeperPlayer))
    (maps : Maps) (p q : Player) (h1 : q.name = p.name) (h2 : q.team = p.team)
    (h3 : q.position = p.position) :
    matchOne scorer sps maps q = matchOne scorer sps maps p := by
  unfold matchOne
  rw [h1, h2, h3]

theorem assignF_name (scorer : LC → LC → Nat) (sps : List (LC × SleeperPlayer))
    (maps : Maps) (p : Player) : (assignF scorer sps maps p).name = p.name := by
  unfold assignF; cases matchOne scorer sps maps p <;> rfl

theorem assignF_team (scorer : LC → LC → Nat) (sps : List (LC × SleeperPlayer))
    (maps : Maps) (p : Player) : (assignF scorer sps maps p).team = p.team := by
  unfold assignF; cases matchOne scorer sps maps p <;> rfl

theorem assignF_position (scorer : LC → LC → Nat) (sps : List (LC × SleeperPlayer))
    (maps : Maps) (p : Player) : (assignF scorer sps maps p).position = p.position := by
  unfold assignF; cases matchOne scorer sps maps p <;> rfl

theorem assignF_drafted (scorer : LC → LC → Nat) (sps : List (LC × SleeperPlayer))
    (maps : Maps) (p : Player) : (assignF scorer sps maps p).drafted = p.drafted := by
  unfold assignF; cases matchOne scorer sps maps p <;> rfl

theorem assignF_sid (scorer : LC → LC → Nat) (sps : List (LC × SleeperPlayer))
    (maps : Maps) (p : Player) :
    (assignF scorer sps maps p).sleeper_id =
      (match matchOne scorer sps maps p with
       | some pid => some pid
       | none => p.sleeper_id) := by
  unfold assignF; cases matchOne scorer sps maps p <;> rfl

/-- Re-resolving a record whose identity fields agree with `p` and whose
resolved id is the one the matcher already assigned for `p` leaves that id
unchanged. -/
theorem assignF_stable (scorer : LC → LC → Nat) (sps : List (LC × SleeperPlayer))
    (maps : Maps) (p q : Player) (h1 : q.name = p.name) (h2 : q.team = p.team)
    (h3 : q.position = p.position)
    (h4 : q.sleeper_id = (assignF scorer sps maps p).sleeper_id) :
    (assignF scorer sps maps q).sleeper_id = (assignF scorer sps maps p).sleeper_id := by
  rw [assignF_sid, assignF_sid, matchOne_congr scorer sps maps p q h1 h2 h3]
  cases h : matchOne scorer sps maps p
  · rw [h4, assignF_sid, h]
  · rfl

/-! ## Framing of match_players -/

theorem match_players_fst (scorer : LC → LC → Nat) (st : ToolState) :
    (match_players scorer st).1 =
      { st with players :=
          (if st.drafted_sleeper_ids = [] then
            st.players.map (assignF scorer st.sleeper_players (buildMaps st.sleeper_players))
          else
            applyPipeline st.sleeper_players st.drafted_sleeper_ids
              (st.players.map (assignF scorer st.sleeper_players (buildMaps st.sleeper_players)))) } := by
  unfold match_players
  dsimp only
  rw [matchLoop_fst]
  by_cases h : st.drafted_sleeper_ids = []
  · rw [if_neg (by simp [h]), if_pos h]
  · rw [if_pos h, if_neg h, apply_drafted_status_eq]

theorem match_players_count (scorer : LC → LC → Nat) (st : ToolState) :
    (match_players scorer st).2.1 =
      (st.players.filter (fun p =>
        (matchOne scorer st.sleeper_players (buildMaps st.sleeper_players) p).isSome)).length := by
  unfold match_players
  dsimp only
  rw [matchLoop_count]

theorem match_players_unmatched (scorer : LC → LC → Nat) (st : ToolState) :
    (match_players scorer st).2.2 =
      (st.players.filter (fun p =>
        (matchOne scorer st.sleeper_players (buildMaps st.sleeper_players) p).isNone)).map
        (fun p => (p, bestDiag scorer (buildMaps st.sleeper_players) p)) := by
  unfold match_players
  dsimp only
  rw [matchLoop_unmatched]

/-! ## Degenerate inputs -/

theorem matchOne_empty (scorer : LC → LC → Nat) (p : Player) :
    matchOne scorer [] (buildMaps []) p = none := by
  show matchFields scorer [] ⟨[], [], []⟩ p.name p.team p.position = none
  unfold matchFields candidatesMap tier4
  simp only [dget, extractOne, List.foldl, List.map_nil, List.filter_nil]
  have h2 : (if lastToken (_normalize_name p.name) ≠ [] ∧
        upperStr p.team ≠ [] ∧ upperStr p.team ≠ strL "FA" ∧ upperStr p.position ≠ []
      then tripleCandidates [] p.name p.team p.position else []) = [] := by
    split <;> rfl
  rw [h2]

theorem bestDiag_empty (scorer : LC → LC → Nat) (p : Player) :
    bestDiag scorer (buildMaps []) p = none := rfl

/-! ## Lemmas about the name normalizer -/

theorem normalize_eq_body (l : LC) :
    _normalize_name l =
      joinWords ((words (normStage2 (normStage1 l))).filter
        (fun t => !(suffixTokens.contains t))) := by
  unfold _normalize_name
  split
  · rename_i h; subst h; rfl
  · rfl

theorem normStage1_cons (c : Char) (l : LC) :
    normStage1 (c :: l) = nfkdStrip (Char.toLower c) ++ normStage1 l := rfl

theorem normStage1_append (a b : LC) :
    normStage1 (a ++ b) = normStage1 a ++ normStage1 b := by
  induction a with
  | nil => rfl
  | cons c cs ih =>
    rw [List.cons_append, normStage1_cons, normStage1_cons, ih, List.append_assoc]

theorem splitWs_ne_nil (l : LC) : splitWs l ≠ [] := by
  cases l with
  | nil => simp [splitWs]
  | cons c cs =>
    unfold splitWs
    split
    · simp
    · split <;> simp

theorem splitWs_cons (c : Char) (cs : LC) :
    splitWs (c :: cs) =
      (if isPySpace c then [] :: splitWs cs
       else
         match splitWs cs with
         | [] => [[c]]
         | w :: ws => (c :: w) :: ws) := rfl

theorem splitWs_append_space (a b : LC) :
    splitWs (a ++ ' ' :: b) = splitWs a ++ splitWs b := by
  induction a with
  | nil =>
    show splitWs (' ' :: b) = [[]] ++ splitWs b
    rw [splitWs_cons, if_pos (by decide)]
    rfl
  | cons c cs ih =>
    show splitWs (c :: (cs ++ ' ' :: b)) = splitWs (c :: cs) ++ splitWs b
    by_cases hc : isPySpace c
    · rw [splitWs_cons, splitWs_cons, if_pos hc, if_pos hc, ih]
      rfl
    · rw [splitWs_cons, splitWs_cons, if_neg hc, if_neg hc, ih]
      rcases hcs : splitWs cs with _ | ⟨w, ws⟩
      · exact absurd hcs (splitWs_ne_nil cs)
      · rfl

theorem words_append_space (a b : LC) :
    words (a ++ ' ' :: b) = words a ++ words b := by
  unfold words
  rw [splitWs_append_space, List.filter_append]

/-- Replacing an accented letter by its base letter, the relation the
normalizer's accent-stripping is claimed to respect. -/
def deAccent (c : Char) : Char := (accentBase.lookup c).getD c

theorem lookup_mem_charTbl :
    ∀ (l : List (Char × Char)) (c b : Char), l.lookup c = some b → (c, b) ∈ l := by
  intro l
  induction l with
  | nil => intro c b h; simp [List.lookup] at h
  | cons e t ih =>
    intro c b h
    cases e with
    | mk k v =>
      simp only [List.lookup] at h
      split at h
      · rename_i hck
        have hck2 : c = k := by
          have := of_decide_eq_true (by exact hck)
          exact this
        exact List.mem_cons.mpr (Or.inl (by rw [hck2, Option.some.inj h]))
      · exact List.mem_cons.mpr (Or.inr (ih c b h))

theorem nfkd_deAccent (c : Char) :
    nfkdStrip (Char.toLower (deAccent c)) = nfkdStrip (Char.toLower c) := by
  unfold deAccent
  cases h : accentBase.lookup c with
  | none => rfl
  | some b =>
    have hmem : (c, b) ∈ accentBase := lookup_mem_charTbl accentBase c b h
    fin_cases hmem <;> decide

theorem normStage1_deAccent (n : LC) :
    normStage1 (n.map deAccent) = normStage1 n := by
  induction n with
  | nil => rfl
  | cons c cs ih =>
    rw [List.map_cons, normStage1_cons, normStage1_cons, ih, nfkd_deAccent]

/-- Appending a space and one suffix token leaves the normalized key
unchanged (the token's word is filtered out). -/
theorem normalize_append_token (n t : LC)
    (h1 : normStage1 t = t) (h2 : normStage2 t = t) (h3 : words t = [t])
    (h4 : suffixTokens.contains t = true) :
    _normalize_name (n ++ ' ' :: t) = _normalize_name n := by
  rw [normalize_eq_body, normalize_eq_body]
  have e1 : normStage1 (n ++ ' ' :: t) = normStage1 n ++ ' ' :: t := by
    rw [normStage1_append, normStage1_cons, h1]
    rfl
  rw [e1]
  have e2 : normStage2 (normStage1 n ++ ' ' :: t) =
      normStage2 (normStage1 n) ++ ' ' :: t := by
    unfold normStage2
    rw [List.map_append, List.map_cons]
    have : (if isKeepChar ' ' then ' ' else ' ') = ' ' := by decide
    rw [this]
    show _ ++ ' ' :: List.map _ t = _ ++ ' ' :: t
    have := h2
    unfold normStage2 at this
    rw [this]
  rw [e2, words_append_space, h3, List.filter_append]
  have e3 : List.filter (fun t2 => !(suffixTokens.contains t2)) [t] = [] := by
    simp only [List.filter_cons, h4, Bool.not_true, List.filter_nil]
    rfl
  rw [e3, List.append_nil]

theorem normalize_suffix (n s : LC) (hs : s ∈ suffixTokens) :
    _normalize_name (n ++ ' ' :: s) = _normalize_name n := by
  fin_cases hs <;>
    exact normalize_append_token n _ (by decide) (by decide) (by decide) (by decide)

theorem normalize_lower_congr (n1 n2 : LC)
    (h : n1.map Char.toLower = n2.map Char.toLower) :
    _normalize_name n1 = _normalize_name n2 := by
  rw [normalize_eq_body, normalize_eq_body]
  unfold normStage1
  rw [h]

/-! ## Tier-4 and tier-3 characterizations -/

theorem tier4_some_iff (sps : List (LC × SleeperPlayer)) (name team position pid : LC) :
    tier4 sps name team position = some pid ↔
      (lastToken (_normalize_name name) ≠ [] ∧ upperStr team ≠ [] ∧
       upperStr team ≠ strL "FA" ∧ upperStr position ≠ [] ∧
       tripleCandidates sps name team position = [pid]) := by
  constructor
  · intro h
    simp only [tier4] at h
    split at h
    · rename_i fb x hg
      by_cases hguard : lastToken (_normalize_name name) ≠ [] ∧ upperStr team ≠ [] ∧
          upperStr team ≠ strL "FA" ∧ upperStr position ≠ []
      · rw [if_pos hguard] at hg
        refine ⟨hguard.1, hguard.2.1, hguard.2.2.1, hguard.2.2.2, ?_⟩
        rw [hg, Option.some.inj h]
      · rw [if_neg hguard] at hg
        exact absurd hg (by simp)
    · simp at h
  · rintro ⟨g1, g2, g3, g4, hc⟩
    simp only [tier4]
    rw [if_pos ⟨g1, g2, g3, g4⟩, hc]

theorem tier4_none_of_two (sps : List (LC × SleeperPlayer)) (name team position : LC)
    (h : 2 ≤ (tripleCandidates sps name team position).length) :
    tier4 sps name team position = none := by
  cases h4 : tier4 sps name team position with
  | none => rfl
  | some pid =>
    have := (tier4_some_iff sps name team position pid).mp h4
    rw [this.2.2.2.2] at h
    exact absurd h (by simp)

/-- A record that fails tiers 1-3 is resolved exactly by the tier-4
structured fallback. -/
theorem matchOne_reach4 (scorer : LC → LC → Nat) (sps : List (LC × SleeperPlayer))
    (maps : Maps) (p : Player)
    (h1 : dget maps.sleeper_names p.name = none)
    (h2 : dget maps.normalized_map (_normalize_name p.name) = none)
    (h3 : ∀ k s, extractOne scorer (_normalize_name p.name)
            ((candidatesMap maps p.position).map (fun e => e.1)) = some (k, s) →
          s < 88) :
    matchOne scorer sps maps p = tier4 sps p.name p.team p.position := by
  simp only [matchOne, matchFields, h1, h2]
  cases hE : extractOne scorer (_normalize_name p.name)
      ((candidatesMap maps p.position).map (fun e => e.1)) with
  | none => rfl
  | some b =>
    cases b with
    | mk k s =>
      dsimp only
      rw [if_neg (Nat.not_le.mpr (h3 k s hE))]

/-- A record that fails tiers 1-2 and whose best fuzzy candidate scores at
least 88 is resolved to that candidate's id from the candidate table. -/
theorem matchOne_fuzzy_accept (scorer : LC → LC → Nat)
    (sps : List (LC × SleeperPlayer)) (maps : Maps) (p : Player) (k : LC) (s : Nat)
    (h1 : dget maps.sleeper_names p.name = none)
    (h2 : dget maps.normalized_map (_normalize_name p.name) = none)
    (hE : extractOne scorer (_normalize_name p.name)
            ((candidatesMap maps p.position).map (fun e => e.1)) = some (k, s))
    (h88 : 88 ≤ s) :
    ∃ pid, dget (candidatesMap maps p.position) k = some pid ∧
      matchOne scorer sps maps p = some pid := by
  obtain ⟨pid, hpid⟩ :=
    dget_isSome_of_mem_keys (candidatesMap maps p.position) k
      (extractOne_mem scorer (_normalize_name p.name) _ k s hE)
  refine ⟨pid, hpid, ?_⟩
  simp only [matchOne, matchFields, h1, h2, hE]
  rw [if_pos h88, hpid]

/-! ## Characterization of the reconciler passes -/

theorem pass2any_iff (sps : List (LC × SleeperPlayer)) (ids : List LC)
    (nn pos : LC) :
    pass2any sps ids nn pos = true ↔
      ∃ did, did ∈ ids ∧ ∃ sp, dget sps did = some sp ∧
        _normalize_name (sp.full_name.getD []) = nn ∧
        (upperStr (sp.position.getD []) = [] ∨ upperStr (sp.position.getD []) = pos) := by
  unfold pass2any
  rw [List.any_eq_true]
  constructor
  · rintro ⟨did, hdid, hf⟩
    cases hsp : dget sps did with
    | none => rw [hsp] at hf; simp at hf
    | some sp =>
      rw [hsp] at hf
      dsimp only at hf
      split at hf
      · rename_i hn
        exact ⟨did, hdid, sp, hsp, hn, of_decide_eq_true hf⟩
      · simp at hf
  · rintro ⟨did, hdid, sp, hsp, hn, hcond⟩
    refine ⟨did, hdid, ?_⟩
    rw [hsp]
    dsimp only
    rw [if_pos hn]
    exact decide_eq_true hcond

/-- Every drafted flag the reconciler sets comes either from the direct
resolved-id pass or from a name-fallback candidate that has a registry
entry. -/
theorem drafted_source (st : ToolState) (p : Player)
    (hp : p ∈ (apply_drafted_status st).players) (hd : p.drafted = true) :
    (p.sleeper_id.getD [] ≠ [] ∧ p.sleeper_id.getD [] ∈ st.drafted_sleeper_ids) ∨
    (∃ did sp, did ∈ st.drafted_sleeper_ids ∧ dget st.sleeper_players did = some sp ∧
      _normalize_name (sp.full_name.getD []) = _normalize_name p.name ∧
      (upperStr (sp.position.getD []) = [] ∨
       upperStr (sp.position.getD []) = p.position)) := by
  rw [apply_drafted_status_eq] at hp
  dsimp only at hp
  unfold applyPipeline at hp
  split at hp
  · rcases List.mem_map.mp hp with ⟨q, _, hq⟩
    rw [← hq] at hd
    exact absurd hd (by simp [resetP])
  · rcases List.mem_map.mp hp with ⟨q1, hq1, hq2⟩
    rcases List.mem_map.mp hq1 with ⟨q0, hq0, hq01⟩
    rcases List.mem_map.mp hq0 with ⟨r, _, hr0⟩
    simp only [pass1f] at hq01
    split at hq01
    · -- direct pass fired: q1 = { q0 with drafted := true }
      rename_i hcond
      have hq1d : q1.drafted = true := by rw [← hq01]
      have hpq1 : p = q1 := by
        rw [← hq2]
        simp [pass2f, hq1d]
      left
      rw [hpq1, ← hq01]
      exact hcond
    · -- direct pass did not fire: q1 = q0 = resetP r, so q1.drafted = false
      have hq1d : q1.drafted = false := by rw [← hq01, ← hr0]; rfl
      simp only [pass2f, hq1d, Bool.false_eq_true, if_false] at hq2
      split at hq2
      · split at hq2
        · -- name fallback fired: p = { q1 with drafted := true }
          rename_i hmem hany
          right
          rcases (pass2any_iff st.sleeper_players st.drafted_sleeper_ids
              (_normalize_name q1.name) q1.position).mp hany with
            ⟨did, hdid, sp, hsp, hn, hcond2⟩
          have hpn : p.name = q1.name := by rw [← hq2]
          have hpp : p.position = q1.position := by rw [← hq2]
          exact ⟨did, sp, hdid, hsp, by rw [hpn]; exact hn, by rw [hpp]; exact hcond2⟩
        · rw [← hq2, hq1d] at hd; simp at hd
      · rw [← hq2, hq1d] at hd; simp at hd

/-! ## Stability of resolved ids across a second matcher run -/

theorem pass1f_name (ids : List LC) (p : Player) : (pass1f ids p).name = p.name := by
  rcases pass1f_cases ids p with h | h <;> rw [h]

theorem pass1f_team (ids : List LC) (p : Player) : (pass1f ids p).team = p.team := by
  rcases pass1f_cases ids p with h | h <;> rw [h]

theorem pass1f_position (ids : List LC) (p : Player) :
    (pass1f ids p).position = p.position := by
  rcases pass1f_cases ids p with h | h <;> rw [h]

theorem pass2f_name (sps : List (LC × SleeperPlayer)) (ids dnames : List LC)
    (p : Player) : (pass2f sps ids dnames p).name = p.name := by
  rcases pass2f_cases sps ids dnames p with h | h <;> rw [h]

theorem pass2f_team (sps : List (LC × SleeperPlayer)) (ids dnames : List LC)
    (p : Player) : (pass2f sps ids dnames p).team = p.team := by
  rcases pass2f_cases sps ids dnames p with h | h <;> rw [h]

theorem pass2f_position (sps : List (LC × SleeperPlayer)) (ids dnames : List LC)
    (p : Player) : (pass2f sps ids dnames p).position = p.position := by
  rcases pass2f_cases sps ids dnames p with h | h <;> rw [h]

theorem map_proj_absorb {α : Type} (f : Player → α) (F : Player → Player)
    (h : ∀ p, f (F p) = f p) (ps : List Player) :
    (ps.map F).map f = ps.map f := by
  induction ps with
  | nil => rfl
  | cons p t ih => simp only [List.map_cons, h, ih]

theorem applyPipeline_sids (sps : List (LC × SleeperPlayer)) (ids : List LC)
    (ps : List Player) :
    (applyPipeline sps ids ps).map (fun p => p.sleeper_id) =
      ps.map (fun p => p.sleeper_id) := by
  unfold applyPipeline
  split
  · exact map_proj_absorb (fun p => p.sleeper_id) resetP (fun p => rfl) ps
  · rw [map_proj_absorb (fun p => p.sleeper_id)
          (pass2f sps ids (draftedNormalizedNames sps ids))
          (sleeper_id_pass2f sps ids (draftedNormalizedNames sps ids)),
        map_proj_absorb (fun p => p.sleeper_id) (pass1f ids) (sleeper_id_pass1f ids),
        map_proj_absorb (fun p => p.sleeper_id) resetP (fun p => rfl)]

theorem applyPipeline_eq_map (sps : List (LC × SleeperPlayer)) (ids : List LC)
    (h : ¬ids = []) (l : List Player) :
    applyPipeline sps ids l =
      l.map (fun p =>
        pass2f sps ids (draftedNormalizedNames sps ids) (pass1f ids (resetP p))) := by
  unfold applyPipeline
  rw [if_neg h, List.map_map, List.map_map]
  rfl

theorem match_players_sps (scorer : LC → LC → Nat) (st : ToolState) :
    (match_players scorer st).1.sleeper_players = st.sleeper_players := by
  rw [match_players_fst]

theorem match_players_ids (scorer : LC → LC → Nat) (st : ToolState) :
    (match_players scorer st).1.drafted_sleeper_ids = st.drafted_sleeper_ids := by
  rw [match_players_fst]

theorem run_twice_aux (scorer : LC → LC → Nat) (sps : List (LC × SleeperPlayer))
    (maps : Maps) (g : Player → Player)
    (hname : ∀ p, (g p).name = p.name) (hteam : ∀ p, (g p).team = p.team)
    (hpos : ∀ p, (g p).position = p.position)
    (hsid : ∀ p, (g p).sleeper_id = p.sleeper_id) (ps : List Player) :
    (((ps.map (assignF scorer sps maps)).map g).map (assignF scorer sps maps)).map
        (fun p => p.sleeper_id) =
      ((ps.map (assignF scorer sps maps)).map g).map (fun p => p.sleeper_id) := by
  induction ps with
  | nil => rfl
  | cons p t ih =>
    simp only [List.map_cons]
    rw [List.cons.injEq]
    refine ⟨?_, ih⟩
    rw [hsid (assignF scorer sps maps p)]
    exact assignF_stable scorer sps maps p (g (assignF scorer sps maps p))
      (by rw [hname, assignF_name]) (by rw [hteam, assignF_team])
      (by rw [hpos, assignF_position]) (hsid _)

/-- Running the matcher a second time against the same registry snapshot
leaves every record's resolved id unchanged. -/
theorem match_players_sids_stable (scorer : LC → LC → Nat) (st : ToolState) :
    ((match_players scorer (match_players scorer st).1).1.players).map
        (fun p => p.sleeper_id) =
      ((match_players scorer st).1.players).map (fun p => p.sleeper_id) := by
  rw [match_players_fst scorer (match_players scorer st).1]
  dsimp only
  rw [match_players_sps, match_players_ids]
  rw [match_players_fst scorer st]
  dsimp only
  by_cases h : st.drafted_sleeper_ids = []
  · rw [if_pos h, if_pos h]
    have := run_twice_aux scorer st.sleeper_players
      (buildMaps st.sleeper_players) id (fun _ => rfl) (fun _ => rfl) (fun _ => rfl)
      (fun _ => rfl) st.players
    rw [List.map_id] at this
    exact this
  · rw [if_neg h, if_neg h]
    have hn : ∀ p : Player,
        (pass2f st.sleeper_players st.drafted_sleeper_ids
          (draftedNormalizedNames st.sleeper_players st.drafted_sleeper_ids)
          (pass1f st.drafted_sleeper_ids (resetP p))).name = p.name := fun p => by
      rw [pass2f_name, pass1f_name]; rfl
    have ht : ∀ p : Player,
        (pass2f st.sleeper_players st.drafted_sleeper_ids
          (draftedNormalizedNames st.sleeper_players st.drafted_sleeper_ids)
          (pass1f st.drafted_sleeper_ids (resetP p))).team = p.team := fun p => by
      rw [pass2f_team, pass1f_team]; rfl
    have hpo : ∀ p : Player,
        (pass2f st.sleeper_players st.drafted_sleeper_ids
          (draftedNormalizedNames st.sleeper_players st.drafted_sleeper_ids)
          (pass1f st.drafted_sleeper_ids (resetP p))).position = p.position := fun p => by
      rw [pass2f_position, pass1f_position]; rfl
    have hs : ∀ p : Player,
        (pass2f st.sleeper_players st.drafted_sleeper_ids
          (draftedNormalizedNames st.sleeper_players st.drafted_sleeper_ids)
          (pass1f st.drafted_sleeper_ids (resetP p))).sleeper_id = p.sleeper_id :=
      fun p => by rw [sleeper_id_pass2f, sleeper_id_pass1f]; rfl
    rw [applyPipeline_sids, applyPipeline_sids,
        applyPipeline_eq_map st.sleeper_players st.drafted_sleeper_ids h]
    rw [← map_proj_absorb (fun p => p.sleeper_id) _ hs
          (st.players.map (assignF scorer st.sleeper_players (buildMaps st.sleeper_players)))]
    exact run_twice_aux scorer st.sleeper_players (buildMaps st.sleeper_players)
      _ hn ht hpo hs st.players

/-! ## Claim theorems -/

/-- A registry snapshot with a single entry that has no usable name fields
but whose team/position match; the ranked name normalizes to the empty
surname key. -/
def C1sps : List (LC × SleeperPlayer) :=
  [(strL "1", { team := some (strL "KC"), position := some (strL "WR") })]

/-- A ranked record whose display name normalizes to the empty key. -/
def C1p : Player := mkP "." "KC" "WR"

/-- Claim C1 counterexample: this record reaches tier 4 (tiers 1-3 all
fail), exactly one registry record satisfies the structural triple with a
non-"FA" team, yet the matcher leaves the record unmatched, because the
source additionally requires the normalized surname token to be nonempty
(line 234).  This refutes the claimed "if and only if". -/
theorem C1_counterexample :
    dget (buildMaps C1sps).sleeper_names C1p.name = none ∧
    dget (buildMaps C1sps).normalized_map (_normalize_name C1p.name) = none ∧
    extractOne (constScorer 0) (_normalize_name C1p.name)
      ((candidatesMap (buildMaps C1sps) C1p.position).map (fun e => e.1)) = none ∧
    upperStr C1p.team ≠ strL "FA" ∧
    tripleCandidates C1sps C1p.name C1p.team C1p.position = [strL "1"] ∧
    matchOne (constScorer 0) C1sps (buildMaps C1sps) C1p = none := by
  decide

/-- Claim C1 (amended): for every ranked record reaching tier 4, a match
is assigned iff the normalized surname token, team and position are all
nonempty, the team is not "FA", and exactly one registry record satisfies
the triple; in particular two or more satisfying records leave the record
unmatched. -/
theorem C1_tier4_exactly_one (scorer : LC → LC → Nat)
    (sps : List (LC × SleeperPlayer)) (maps : Maps) (p : Player)
    (h1 : dget maps.sleeper_names p.name = none)
    (h2 : dget maps.normalized_map (_normalize_name p.name) = none)
    (h3 : ∀ k s, extractOne scorer (_normalize_name p.name)
            ((candidatesMap maps p.position).map (fun e => e.1)) = some (k, s) →
          s < 88) :
    (∀ pid, matchOne scorer sps maps p = some pid ↔
      (lastToken (_normalize_name p.name) ≠ [] ∧ upperStr p.team ≠ [] ∧
       upperStr p.team ≠ strL "FA" ∧ upperStr p.position ≠ [] ∧
       tripleCandidates sps p.name p.team p.position = [pid])) ∧
    (2 ≤ (tripleCandidates sps p.name p.team p.position).length →
      matchOne scorer sps maps p = none) := by
  have hm := matchOne_reach4 scorer sps maps p h1 h2 h3
  constructor
  · intro pid
    rw [hm]
    exact tier4_some_iff sps p.name p.team p.position pid
  · intro htwo
    rw [hm]
    exact tier4_none_of_two sps p.name p.team p.position htwo

/-- The registry of the spec's structural-fallback scenario. -/
def C1wsps : List (LC × SleeperPlayer) :=
  [(strL "4199",
    { full_name := some (strL "Hollywood Brown"), last_name := some (strL "Brown"),
      team := some (strL "KC"), position := some (strL "WR") })]

/-- The ranked record of the spec's structural-fallback scenario. -/
def C1wp : Player := mkP "Marquise Brown" "KC" "WR"

theorem C1_witness :
    matchOne (constScorer 0) C1wsps (buildMaps C1wsps) C1wp = some (strL "4199") := by
  have h3 : ∀ k s, extractOne (constScorer 0) (_normalize_name C1wp.name)
      ((candidatesMap (buildMaps C1wsps) C1wp.position).map (fun e => e.1)) =
        some (k, s) → s < 88 := by
    intro k s hks
    rw [show extractOne (constScorer 0) (_normalize_name C1wp.name)
          ((candidatesMap (buildMaps C1wsps) C1wp.position).map (fun e => e.1)) =
        some (strL "hollywood brown", 0) from by decide] at hks
    injection Option.some.inj hks with e1 e2
    rw [← e2]
    decide
  exact ((C1_tier4_exactly_one (constScorer 0) C1wsps (buildMaps C1wsps) C1wp
    (by decide) (by decide) h3).1 (strL "4199")).mpr (by decide)

/-- Claim C2: the fuzzy tier is a hard ≥ 88 boundary.  For a record that
failed tiers 1-2 and whose best candidate scored `s`: with 88 ≤ s the
candidate's id is assigned; with s < 88 the fuzzy tier assigns nothing and
resolution falls through to the structured fallback. -/
theorem C2_fuzzy_threshold (scorer : LC → LC → Nat)
    (sps : List (LC × SleeperPlayer)) (maps : Maps) (p : Player) (k : LC) (s : Nat)
    (h1 : dget maps.sleeper_names p.name = none)
    (h2 : dget maps.normalized_map (_normalize_name p.name) = none)
    (hE : extractOne scorer (_normalize_name p.name)
            ((candidatesMap maps p.position).map (fun e => e.1)) = some (k, s)) :
    (88 ≤ s → ∃ pid, dget (candidatesMap maps p.position) k = some pid ∧
      matchOne scorer sps maps p = some pid) ∧
    (s < 88 → matchOne scorer sps maps p = tier4 sps p.name p.team p.position) := by
  constructor
  · intro h88
    exact matchOne_fuzzy_accept scorer sps maps p k s h1 h2 hE h88
  · intro hlt
    refine matchOne_reach4 scorer sps maps p h1 h2 ?_
    intro k2 s2 hk2
    rw [hE] at hk2
    injection Option.some.inj hk2 with e1 e2
    rw [← e2]
    exact hlt

/-- Registry for the fuzzy-threshold witness. -/
def C2wsps : List (LC × SleeperPlayer) :=
  [(strL "9", { full_name := some (strL "abcd"), position := some (strL "WR") })]

/-- Ranked record for the fuzzy-threshold witness. -/
def C2wp : Player := mkP "abzd" "KC" "WR"

theorem C2_witness :
    matchOne (constScorer 88) C2wsps (buildMaps C2wsps) C2wp = some (strL "9") := by
  obtain ⟨pid, hd, hm⟩ :=
    (C2_fuzzy_threshold (constScorer 88) C2wsps (buildMaps C2wsps) C2wp
      (strL "abcd") 88 (by decide) (by decide) (by decide)).1 (by decide)
  have h9 : dget (candidatesMap (buildMaps C2wsps) C2wp.position) (strL "abcd") =
      some (strL "9") := by decide
  rw [h9] at hd
  rw [Option.some.inj hd]
  exact hm

/-- State for the C3 counterexample: a record already flagged drafted, an
empty registry, and a nonempty drafted-id set. -/
def C3st : ToolState :=
  { players := [{ mkP "Zed Zed" "KC" "WR" with drafted := true }],
    sleeper_players := [],
    drafted_sleeper_ids := [strL "9"] }

/-- Claim C3 counterexample: when the drafted-id set is nonempty,
`match_players` re-runs the reconciler (source lines 268-270), which
resets this record's drafted flag from true to false; so the matcher does
mutate drafted flags on some input states. -/
theorem C3_counterexample :
    ((match_players (constScorer 0) C3st).1.players).map (fun p => p.drafted) =
        [false] ∧
      C3st.players.map (fun p => p.drafted) = [true] := by
  decide

/-- Claim C3 (amended): the matching tiers themselves never write drafted
flags; whenever the drafted-id set is empty, `match_players` leaves every
record's drafted flag unchanged.  (When the set is nonempty it re-runs the
reconciler, which recomputes the flags and may change them.) -/
theorem C3_drafted_frame (scorer : LC → LC → Nat) (st : ToolState)
    (h : st.drafted_sleeper_ids = []) :
    ((match_players scorer st).1.players).map (fun p => p.drafted) =
      st.players.map (fun p => p.drafted) := by
  rw [match_players_fst]
  dsimp only
  rw [if_pos h]
  exact map_proj_absorb (fun p => p.drafted) _
    (assignF_drafted scorer st.sleeper_players (buildMaps st.sleeper_players))
    st.players

/-- State for the C3 witness: empty drafted-id set. -/
def C3wst : ToolState :=
  { players := [{ mkP "Zed Zed" "KC" "WR" with drafted := true }],
    sleeper_players := [],
    drafted_sleeper_ids := [] }

theorem C3_witness :
    ((match_players (constScorer 0) C3wst).1.players).map (fun p => p.drafted) =
      C3wst.players.map (fun p => p.drafted) :=
  C3_drafted_frame (constScorer 0) C3wst (by decide)

/-- State for the C4 counterexample: the record's resolved id is already
set, and the registry snapshot resolves its name to a different id. -/
def C4st : ToolState :=
  { players := [{ mkP "Bob Smith" "KC" "WR" with sleeper_id := some (strL "1") }],
    sleeper_players := [(strL "2", { full_name := some (strL "Bob Smith") })],
    drafted_sleeper_ids := [] }

/-- Claim C4 counterexample: the matching loop has no "only if resolved_id
is absent" guard (source line 197 iterates over all records), so running
the matcher against a different registry snapshot reassigns an
already-set resolved id from "1" to "2". -/
theorem C4_counterexample :
    ((match_players (constScorer 0) C4st).1.players).map (fun p => p.sleeper_id) =
        [some (strL "2")] ∧
      C4st.players.map (fun p => p.sleeper_id) = [some (strL "1")] := by
  decide

/-- Claim C4 (amended): the matcher re-attempts resolution for every
record regardless of any existing resolved id, so a different registry
snapshot may reassign it; but the assigned id depends only on the
record's identity fields and the snapshot, so running the matcher again
against the same snapshot leaves every resolved id unchanged. -/
theorem C4_resolved_stable (scorer : LC → LC → Nat) (st : ToolState) :
    ((match_players scorer (match_players scorer st).1).1.players).map
        (fun p => p.sleeper_id) =
      ((match_players scorer st).1.players).map (fun p => p.sleeper_id) :=
  match_players_sids_stable scorer st

/-- Claim C5: reconciliation is a full recompute — whatever drafted flags
a previous reconciliation (under any drafted-id set) left behind, running
the reconciler again with the empty set leaves every record undrafted. -/
theorem C5_empty_reconcile (st : ToolState) :
    ∀ p ∈ (apply_drafted_status
        { apply_drafted_status st with drafted_sleeper_ids := [] }).players,
      p.drafted = false :=
  apply_empty_all_false _ rfl

/-- State for the C5 witness: the first reconciliation flags the record
drafted. -/
def C5wst : ToolState :=
  { players := [{ mkP "Justin Jefferson" "MIN" "WR" with
      sleeper_id := some (strL "7564") }],
    sleeper_players := [(strL "7564",
      { full_name := some (strL "Justin Jefferson"), team := some (strL "MIN"),
        position := some (strL "WR") })],
    drafted_sleeper_ids := [strL "7564"] }

theorem C5_witness :
    ({ mkP "Justin Jefferson" "MIN" "WR" with
        sleeper_id := some (strL "7564") } : Player).drafted = false :=
  C5_empty_reconcile C5wst _ (by decide)

/-- Claim C6: the reconciler is idempotent — running it twice with the
same inputs produces the same state (hence the same drafted flags) as
running it once. -/
theorem C6_reconcile_idempotent (st : ToolState) :
    apply_drafted_status (apply_drafted_status st) = apply_drafted_status st :=
  apply_drafted_status_idem st

/-- Claim C7 counterexample: "A.J. Brown" and "AJ Brown" differ only in
punctuation, yet normalize to different keys, because line 61 replaces a
punctuation character with a space instead of deleting it. -/
theorem C7_counterexample :
    _normalize_name (strL "A.J. Brown") ≠ _normalize_name (strL "AJ Brown") ∧
    _normalize_name (strL "A.J. Brown") = strL "a j brown" ∧
    _normalize_name (strL "AJ Brown") = strL "aj brown" := by
  decide

/-- Claim C7 (amended): normalize is a total pure function (it is a Lean
function); empty input yields the empty string; two names equal after
lowercasing normalize identically; replacing accented letters by their
base letters does not change the key; and appending a trailing
generational suffix token does not change the key.  (Punctuation is
replaced by a space, not removed, so names differing by word-interior
punctuation may normalize differently.) -/
theorem C7_normalize_props :
    (_normalize_name [] = []) ∧
    (∀ n1 n2 : LC, n1.map Char.toLower = n2.map Char.toLower →
      _normalize_name n1 = _normalize_name n2) ∧
    (∀ n : LC, _normalize_name (n.map deAccent) = _normalize_name n) ∧
    (∀ (n s : LC), s ∈ suffixTokens →
      _normalize_name (n ++ ' ' :: s) = _normalize_name n) := by
  refine ⟨rfl, normalize_lower_congr, ?_, normalize_suffix⟩
  intro n
  rw [normalize_eq_body, normalize_eq_body, normStage1_deAccent]

theorem C7_witness :
    _normalize_name (strL "Ken Griffey" ++ ' ' :: strL "jr") =
      _normalize_name (strL "Ken Griffey") :=
  C7_normalize_props.2.2.2 (strL "Ken Griffey") (strL "jr") (by decide)

/-- Claim C8: every record the per-record cascade leaves unresolved
appears in the returned unmatched list, paired with the best fuzzy
candidate and score the diagnostic loop recomputes for it (the same
`extractOne` call as tier 3, even though its score was below the
threshold). -/
theorem C8_unmatched_reported (scorer : LC → LC → Nat) (st : ToolState) (p : Player)
    (hp : p ∈ st.players)
    (hm : matchOne scorer st.sleeper_players (buildMaps st.sleeper_players) p = none) :
    (p, bestDiag scorer (buildMaps st.sleeper_players) p) ∈
      (match_players scorer st).2.2 := by
  rw [match_players_unmatched]
  exact List.mem_map.mpr
    ⟨p, List.mem_filter.mpr ⟨hp, by rw [hm]; rfl⟩, rfl⟩

/-- State for the C8 witness: a record that no tier can resolve. -/
def C8wst : ToolState :=
  { players := [mkP "Q X" "KC" "WR"],
    sleeper_players := [(strL "5",
      { full_name := some (strL "Hollywood Brown"), position := some (strL "WR") })],
    drafted_sleeper_ids := [] }

theorem C8_witness :
    (mkP "Q X" "KC" "WR",
        bestDiag (constScorer 10) (buildMaps C8wst.sleeper_players)
          (mkP "Q X" "KC" "WR")) ∈
      (match_players (constScorer 10) C8wst).2.2 :=
  C8_unmatched_reported (constScorer 10) C8wst (mkP "Q X" "KC" "WR")
    (by decide) (by decide)

/-- Claim C9: degenerate inputs are safe.  With an empty registry the
matcher completes with zero matches, reports every record as unmatched
(with no fuzzy candidate), and leaves every resolved id unchanged; with
an empty drafted set the reconciler completes leaving every drafted flag
false.  (Totality is by construction: both operations are total Lean
functions.) -/
theorem C9_degenerate :
    (∀ (scorer : LC → LC → Nat) (st : ToolState), st.sleeper_players = [] →
      (match_players scorer st).2.1 = 0 ∧
      (match_players scorer st).2.2 =
        st.players.map (fun p => (p, (none : Option (LC × Nat)))) ∧
      ((match_players scorer st).1.players).map (fun p => p.sleeper_id) =
        st.players.map (fun p => p.sleeper_id)) ∧
    (∀ st : ToolState, st.drafted_sleeper_ids = [] →
      ∀ p ∈ (apply_drafted_status st).players, p.drafted = false) := by
  constructor
  · intro scorer st h
    refine ⟨?_, ?_, ?_⟩
    · rw [match_players_count, h]
      have hf : ∀ ps : List Player,
          ps.filter (fun p => (matchOne scorer [] (buildMaps []) p).isSome) = [] := by
        intro ps
        induction ps with
        | nil => rfl
        | cons p t ih => simp [List.filter_cons, matchOne_empty, ih]
      rw [hf]
      rfl
    · rw [match_players_unmatched, h]
      have hf : ∀ ps : List Player,
          (ps.filter (fun p => (matchOne scorer [] (buildMaps []) p).isNone)).map
              (fun p => (p, bestDiag scorer (buildMaps []) p)) =
            ps.map (fun p => (p, (none : Option (LC × Nat)))) := by
        intro ps
        induction ps with
        | nil => rfl
        | cons p t ih => simp [List.filter_cons, matchOne_empty, bestDiag_empty, ih]
      rw [hf]
    · rw [match_players_fst, h]
      dsimp only
      by_cases hids : st.drafted_sleeper_ids = []
      · rw [if_pos hids]
        exact map_proj_absorb (fun p => p.sleeper_id) _
          (fun p => by simp [assignF_sid, matchOne_empty]) st.players
      · rw [if_neg hids, applyPipeline_sids]
        exact map_proj_absorb (fun p => p.sleeper_id) _
          (fun p => by simp [assignF_sid, matchOne_empty]) st.players
  · exact apply_empty_all_false

/-- State for the C9 witness: empty registry, nonempty drafted set. -/
def C9wst : ToolState :=
  { players := [mkP "A B" "KC" "WR"], sleeper_players := [],
    drafted_sleeper_ids := [strL "7"] }

/-- State for the C9 witness, reconciler half: empty drafted set. -/
def C9wst2 : ToolState :=
  { players := [mkP "A B" "KC" "WR"], sleeper_players := [],
    drafted_sleeper_ids := [] }

theorem C9_witness :
    (match_players (constScorer 0) C9wst).2.1 = 0 ∧
      (mkP "A B" "KC" "WR").drafted = false :=
  ⟨(C9_degenerate.1 (constScorer 0) C9wst rfl).1,
   C9_degenerate.2 C9wst2 rfl (mkP "A B" "KC" "WR") (by decide)⟩

/-- Claim C10: a drafted identifier with no registry entry is skipped by
the name-fallback machinery and never appears in the unmatched-drafted
report; a record can become drafted either through direct resolved-id
membership or through a fallback candidate that does have a registry
entry. -/
theorem C10_unknown_ids :
    (∀ (st : ToolState) (idq : LC), idq ∈ st.drafted_sleeper_ids →
      dget st.sleeper_players idq = none →
      ∀ e ∈ get_unmatched_drafted_from_sleeper st, e.player_id ≠ idq) ∧
    (∀ (st : ToolState) (p : Player), p ∈ (apply_drafted_status st).players →
      p.drafted = true →
      (p.sleeper_id.getD [] ≠ [] ∧ p.sleeper_id.getD [] ∈ st.drafted_sleeper_ids) ∨
      (∃ did sp, did ∈ st.drafted_sleeper_ids ∧
        dget st.sleeper_players did = some sp ∧
        _normalize_name (sp.full_name.getD []) = _normalize_name p.name ∧
        (upperStr (sp.position.getD []) = [] ∨
         upperStr (sp.position.getD []) = p.position))) := by
  constructor
  · intro st idq hid hnone e he
    unfold get_unmatched_drafted_from_sleeper at he
    split at he
    · simp at he
    · rcases List.mem_filterMap.mp he with ⟨did, hdid, hf⟩
      cases hsp : dget st.sleeper_players did with
      | none => rw [hsp] at hf; simp at hf
      | some sp =>
        rw [hsp] at hf
        dsimp only at hf
        split at hf
        · simp at hf
        · have hpe : e.player_id = did := by rw [← Option.some.inj hf]
          intro hq
          rw [hpe] at hq
          rw [hq] at hsp
          rw [hsp] at hnone
          exact Option.noConfusion hnone
  · exact drafted_source

/-- State for the C10 witness: the drafted id "9" has no registry entry,
and the sole record carries it as resolved id. -/
def C10wst : ToolState :=
  { players := [{ mkP "X Y" "KC" "WR" with sleeper_id := some (strL "9") }],
    sleeper_players := [],
    drafted_sleeper_ids := [strL "9"] }

/-- The record as the reconciler leaves it in `C10wst`. -/
def C10wp : Player :=
  { mkP "X Y" "KC" "WR" with sleeper_id := some (strL "9"), drafted := true }

theorem C10_witness :
    (C10wp.sleeper_id.getD [] ≠ [] ∧
      C10wp.sleeper_id.getD [] ∈ C10wst.drafted_sleeper_ids) ∨
    (∃ did sp, did ∈ C10wst.drafted_sleeper_ids ∧
      dget C10wst.sleeper_players did = some sp ∧
      _normalize_name (sp.full_name.getD []) = _normalize_name C10wp.name ∧
      (upperStr (sp.position.getD []) = [] ∨
       upperStr (sp.position.getD []) = C10wp.position)) :=
  C10_unknown_ids.2 C10wst C10wp (by decide) (by decide)

end FantasyDraft
